import Mathlib

/-!
# ContextGLX: visual selection, context lifecycle and activation

A shallow embedding of `src/SFML/Window/Linux/ContextGLX.cpp`.

* Handles (`Window`, `GLXContext`) are natural numbers, `0` standing for
  `None` / `NULL`.
* `unsigned int` values are natural numbers; the two `static_cast<unsigned int>`
  conversions of `CreateContext` are kept as an explicit reduction modulo `2^32`.
* `int` values (the attributes written by `glXGetConfig`, the scores) are
  integers; the one sum computed on them, the colour total of line 229, is taken
  exactly.
* The messages written to `std::cerr` are not modelled.
* The X11/GLX layer is external.  Its answers are the fields of `Platform`;
  the calls that change or present state (bind/unbind, destroy, swap) are
  appended to the call log of `Native`, whose `current` field is what
  `glXGetCurrentContext()` returns on the calling thread.
* `Context::EvaluateFormat` and `Context::SetActive` belong to the base class,
  whose source file is not part of `src/`; the functions that use them take
  them as parameters.
-/

/-- The `sf::ContextSettings` triple. -/
structure ContextSettings where
  DepthBits : Nat
  StencilBits : Nat
  AntialiasingLevel : Nat
deriving DecidableEq, Repr

/-- The ten attribute values `glXGetConfig` writes for one `XVisualInfo`
(lines 212-222). -/
structure VisualConfig where
  RGBA : Int
  doubleBuffer : Int
  red : Int
  green : Int
  blue : Int
  alpha : Int
  depth : Int
  stencil : Int
  multiSampling : Int
  samples : Int
deriving DecidableEq, Repr, Inhabited

/-- The native calls recorded in the call log. -/
inductive NativeCall where
  | glXMakeCurrent (drawable : Nat) (context : Nat)
  | glXDestroyContext (context : Nat)
  | XDestroyWindow (window : Nat)
  | XFlush
  | glXSwapBuffers (drawable : Nat)
deriving DecidableEq, Repr

/-- The state of the native layer seen from the calling thread: the context
`glXGetCurrentContext()` returns, and the calls issued so far (oldest first). -/
structure Native where
  current : Nat
  calls : List NativeCall
deriving DecidableEq, Repr

/-- The answers of the X11/GLX layer and of the other collaborators.
`glXMakeCurrent n d c` gives the call's return value (as `!= 0`) and the
thread's current context after the call. `XGetVisualInfo w` is `none` for a
`NULL` array; the length of the list is `nbVisuals`. `glXCreateContext i s`
is the handle returned for the visual of index `i` and share context `s`.
`defaultSettings` is the value of a default-constructed `ContextSettings`. -/
structure Platform where
  XCreateWindow : Nat
  desktopBitsPerPixel : Nat
  defaultSettings : ContextSettings
  XGetWindowAttributes : Nat → Bool
  XGetVisualInfo : Nat → Option (List VisualConfig)
  glXCreateContext : Nat → Nat → Nat
  glXMakeCurrent : Native → Nat → Nat → Bool × Nat

/-- The type of `Context::EvaluateFormat(bitsPerPixel, settings, colorBits,
depthBits, stencilBits, antialiasing)`. -/
abbrev Evaluator := Nat → ContextSettings → Int → Int → Int → Int → Int

/-- The data members of `sf::priv::ContextGLX`. -/
structure ContextGLX where
  myWindow : Nat
  myContext : Nat
  myOwnsWindow : Bool
  mySettings : ContextSettings
deriving DecidableEq, Repr

/-- The type of `Context::SetActive(bool)`, a base-class method: it sees the
object and the native layer and cannot write the private members. -/
abbrev Activator := ContextGLX → Bool → Native → Bool × Native

/-- Weights of the four deviations in the score. -/
structure ScoreWeights where
  color : Nat
  depth : Nat
  stencil : Nat
  antialiasing : Nat
deriving DecidableEq, Repr

/-- The ordering section 4.1 step 3 asks of the weights: every deviation counts,
colour least and antialiasing most. -/
def ScoreWeights.ordered (w : ScoreWeights) : Prop :=
  0 < w.color ∧ w.color ≤ w.depth ∧ w.color ≤ w.stencil ∧
    w.depth ≤ w.antialiasing ∧ w.stencil ≤ w.antialiasing

instance (w : ScoreWeights) : Decidable w.ordered := by
  unfold ScoreWeights.ordered
  exact inferInstance

/-- Modelled from the spec: `Context::EvaluateFormat` (base class, its source
file is not under `src/`). Section 4.1 step 3: the absolute deviations between
desired and actual colour-channel total, depth bits, stencil bits and
antialiasing sample count, combined with fixed weights; an exact match scores
zero. The spec leaves the numeric weights open, so they are an argument. -/
def EvaluateFormat (w : ScoreWeights) : Evaluator :=
  fun bitsPerPixel settings colorBits depthBits stencilBits antialiasing =>
    (w.color : Int) * |(bitsPerPixel : Int) - colorBits|
      + (w.depth : Int) * |(settings.DepthBits : Int) - depthBits|
      + (w.stencil : Int) * |(settings.StencilBits : Int) - stencilBits|
      + (w.antialiasing : Int) * |(settings.AntialiasingLevel : Int) - antialiasing|

/-- The conversion `static_cast<unsigned int>(x)` of an `int`. -/
def toUnsigned (x : Int) : Nat := (x % 2 ^ 32).toNat

/-- The native call `glXMakeCurrent(display, drawable, context)`: logged, its
return value and the resulting current context given by the platform. -/
def glXMakeCurrent (p : Platform) (n : Native) (drawable context : Nat) : Bool × Native :=
  ((p.glXMakeCurrent n drawable context).1,
   { current := (p.glXMakeCurrent n drawable context).2,
     calls := n.calls ++ [NativeCall.glXMakeCurrent drawable context] })

/-- Appends a native call that leaves the thread's current context as it is. -/
def Native.issue (n : Native) (c : NativeCall) : Native :=
  { n with calls := n.calls ++ [c] }

/-- The locals of the selection loop: `bestScore`, `bestVisual` (the index of
the visual pointed to, `none` for `NULL`), and the indices handed to
`EvaluateFormat` so far. -/
structure Best where
  bestScore : Int
  bestVisual : Option Nat
  scored : List Nat
deriving DecidableEq, Repr

/-- Lines 229-230: the colour total of a visual and the score
`EvaluateFormat` gives it against the current `mySettings`. -/
def scoreOf (evaluate : Evaluator) (bitsPerPixel : Nat) (mySettings : ContextSettings)
    (v : VisualConfig) : Int :=
  let color := v.red + v.green + v.blue + v.alpha
  evaluate bitsPerPixel mySettings color v.depth v.stencil
    (if v.multiSampling ≠ 0 then v.samples else 0)

/-- The body of `for (int i = 0; i < nbVisuals; ++i)` (lines 209-238), run over
the visuals from index `i` on. -/
def forVisuals (evaluate : Evaluator) (bitsPerPixel : Nat) (mySettings : ContextSettings) :
    List VisualConfig → Nat → Best → Best
  | [], _, b => b
  | v :: vs, i, b =>
    if v.RGBA = 0 ∨ v.doubleBuffer = 0 then
      forVisuals evaluate bitsPerPixel mySettings vs (i + 1) b
    else
      let score := scoreOf evaluate bitsPerPixel mySettings v
      if score < b.bestScore then
        forVisuals evaluate bitsPerPixel mySettings vs (i + 1)
          { bestScore := score, bestVisual := some i, scored := b.scored ++ [i] }
      else
        forVisuals evaluate bitsPerPixel mySettings vs (i + 1)
          { b with scored := b.scored ++ [i] }

/-- What the selection loop leaves behind: `mySettings`, the locals, and the
antialiasing level of every pass made, in order. -/
structure Selection where
  mySettings : ContextSettings
  best : Best
  levels : List Nat
deriving DecidableEq, Repr

/-- The loop `while (!bestVisual)` (lines 207-260), entered with
`bestVisual == NULL`: one pass over the visuals, then either the loop
condition ends the loop (a visual was kept), or the antialiasing level is
lowered and the loop goes round again, or the function returns. -/
def whileNoVisual (evaluate : Evaluator) (bitsPerPixel : Nat) (visuals : List VisualConfig)
    (mySettings : ContextSettings) (bestScore : Int) (scored : List Nat) (levels : List Nat) :
    Selection :=
  let b := forVisuals evaluate bitsPerPixel mySettings visuals 0
    { bestScore := bestScore, bestVisual := none, scored := scored }
  let levels1 := levels ++ [mySettings.AntialiasingLevel]
  if b.bestVisual = none then
    if mySettings.AntialiasingLevel > 2 then
      whileNoVisual evaluate bitsPerPixel visuals
        { mySettings with AntialiasingLevel := 2 } b.bestScore b.scored levels1
    else if mySettings.AntialiasingLevel > 0 then
      whileNoVisual evaluate bitsPerPixel visuals
        { mySettings with AntialiasingLevel := 0 } b.bestScore b.scored levels1
    else
      { mySettings := mySettings, best := b, levels := levels1 }
  else
    { mySettings := mySettings, best := b, levels := levels1 }
termination_by mySettings.AntialiasingLevel

/-- Lines 204-260: `bestScore = 0xFFFF`, `bestVisual = NULL`, then the loop. -/
def findBestVisual (evaluate : Evaluator) (bitsPerPixel : Nat) (settings : ContextSettings)
    (visuals : List VisualConfig) : Selection :=
  whileNoVisual evaluate bitsPerPixel visuals settings 0xFFFF [] []

namespace ContextGLX

/-- Line 263: `shared ? shared->myContext : NULL`. -/
def toShare (shared : Option ContextGLX) : Nat :=
  match shared with
  | some s => s.myContext
  | none => 0

/-- The method `ContextGLX::CreateContext` (lines 174-287), run on an object
whose `myWindow` is set. -/
def CreateContext (p : Platform) (evaluate : Evaluator) (self : ContextGLX)
    (shared : Option ContextGLX) (bitsPerPixel : Nat) (settings : ContextSettings) :
    ContextGLX :=
  let self := { self with mySettings := settings }
  if p.XGetWindowAttributes self.myWindow = false then
    self
  else
    match p.XGetVisualInfo self.myWindow with
    | none => self
    | some visuals =>
      if visuals.length = 0 then
        self
      else
        let sel := findBestVisual evaluate bitsPerPixel self.mySettings visuals
        let self := { self with mySettings := sel.mySettings }
        match sel.best.bestVisual with
        | none => self
        | some i =>
          let self := { self with myContext := p.glXCreateContext i (toShare shared) }
          if self.myContext = 0 then
            self
          else
            let depth := (visuals.getD i default).depth
            let stencil := (visuals.getD i default).stencil
            { self with
              mySettings :=
                { self.mySettings with
                  DepthBits := toUnsigned depth
                  StencilBits := toUnsigned stencil } }

/-- The method `ContextGLX::MakeCurrent` (lines 114-137). -/
def MakeCurrent (p : Platform) (self : ContextGLX) (active : Bool) (n : Native) :
    Bool × Native :=
  if active then
    if self.myContext ≠ 0 then
      if n.current ≠ self.myContext then
        glXMakeCurrent p n self.myWindow self.myContext
      else
        (true, n)
    else
      (false, n)
  else
    if n.current = self.myContext then
      glXMakeCurrent p n 0 0
    else
      (true, n)

/-- The method `ContextGLX::Display` (lines 143-147). -/
def Display (self : ContextGLX) (n : Native) : Native :=
  if self.myWindow ≠ 0 then
    n.issue (NativeCall.glXSwapBuffers self.myWindow)
  else
    n

/-- The method `ContextGLX::IsContextActive` (lines 165-168). -/
def IsContextActive (n : Native) : Bool :=
  decide (n.current ≠ 0)

/-- Modelled from the spec: `Context::SetActive` (base class, its source file
is not under `src/`). Section 4.3 describes `setActive(context, active)`
as the bind / unbind that `MakeCurrent` performs. -/
def SetActive (p : Platform) : Activator :=
  fun self active n => MakeCurrent p self active n

/-- The constructor `ContextGLX::ContextGLX(ContextGLX* shared)` (lines 42-65). -/
def ContextGLX_shared (p : Platform) (evaluate : Evaluator) (setActive : Activator)
    (shared : Option ContextGLX) (n : Native) : ContextGLX × Native :=
  let self : ContextGLX :=
    { myWindow := 0, myContext := 0, myOwnsWindow := true, mySettings := p.defaultSettings }
  let self := { self with myWindow := p.XCreateWindow }
  let self := CreateContext p evaluate self shared p.desktopBitsPerPixel ⟨0, 0, 0⟩
  if shared.isSome then
    (self, (setActive self true n).2)
  else
    (self, n)

/-- The constructor `ContextGLX::ContextGLX(ContextGLX* shared, const
WindowImpl* owner, unsigned int bitsPerPixel, const ContextSettings& settings)`
(lines 71-86); `handle` is `owner->GetHandle()`. -/
def ContextGLX_owner (p : Platform) (evaluate : Evaluator) (setActive : Activator)
    (shared : Option ContextGLX) (handle : Nat) (bitsPerPixel : Nat)
    (settings : ContextSettings) (n : Native) : ContextGLX × Native :=
  let self : ContextGLX :=
    { myWindow := 0, myContext := 0, myOwnsWindow := false, mySettings := p.defaultSettings }
  let self := { self with myWindow := handle }
  let self := if self.myWindow ≠ 0 then
      CreateContext p evaluate self shared bitsPerPixel settings
    else
      self
  if shared.isSome then
    (self, (setActive self true n).2)
  else
    (self, n)

/-- The destructor `ContextGLX::~ContextGLX` (lines 92-108). -/
def destructor (p : Platform) (self : ContextGLX) (n : Native) : Native :=
  let n1 :=
    if self.myContext ≠ 0 then
      let n0 := if n.current = self.myContext then (glXMakeCurrent p n 0 0).2 else n
      n0.issue (NativeCall.glXDestroyContext self.myContext)
    else
      n
  if self.myWindow ≠ 0 ∧ self.myOwnsWindow = true then
    (n1.issue (NativeCall.XDestroyWindow self.myWindow)).issue NativeCall.XFlush
  else
    n1

end ContextGLX

/-- The fallback ladder as the specification words it: the requested level,
then 2 unless the requested level is at most 2, then 0. -/
def ladder (requested : Nat) : List Nat :=
  if requested > 2 then [requested, 2, 0]
  else if requested > 0 then [requested, 0]
  else [0]

/-- The early returns of `CreateContext` on window `window`: the attribute
query fails, the enumeration returns `NULL` or no visual, the selection loop
ends without a visual, or `glXCreateContext` returns `NULL` for the visual the
loop ended on. -/
def creationFails (p : Platform) (evaluate : Evaluator) (shared : Option ContextGLX)
    (window bitsPerPixel : Nat) (settings : ContextSettings) : Prop :=
  p.XGetWindowAttributes window = false ∨
  p.XGetVisualInfo window = none ∨
  p.XGetVisualInfo window = some [] ∨
  ∃ visuals, p.XGetVisualInfo window = some visuals ∧
    ((findBestVisual evaluate bitsPerPixel settings visuals).best.bestVisual = none ∨
      ∃ i, (findBestVisual evaluate bitsPerPixel settings visuals).best.bestVisual = some i ∧
        p.glXCreateContext i (ContextGLX.toShare shared) = 0)

/-! ## Concrete data used to instantiate the theorems -/

/-- The sum of the four absolute deviations: `EvaluateFormat` with every
weight equal to one. -/
def plainScore : Evaluator := EvaluateFormat ⟨1, 1, 1, 1⟩

/-- A visual with 8 bits per colour channel and both mandatory capabilities. -/
def rgbaVisual (depth stencil multiSampling samples : Int) : VisualConfig :=
  { RGBA := 1, doubleBuffer := 1, red := 8, green := 8, blue := 8, alpha := 8,
    depth := depth, stencil := stencil, multiSampling := multiSampling, samples := samples }

/-- A single-buffered visual: it lacks a mandatory capability. -/
def singleBuffered : VisualConfig :=
  { RGBA := 1, doubleBuffer := 0, red := 8, green := 8, blue := 8, alpha := 8,
    depth := 24, stencil := 8, multiSampling := 0, samples := 0 }

/-- The two candidates of Scenario A. -/
def scenarioA : List VisualConfig :=
  [rgbaVisual 24 8 0 0, rgbaVisual 16 0 1 4]

/-- A platform on which the window-attribute query succeeds, the enumeration
returns `visuals`, `glXCreateContext` returns `created`, and `glXMakeCurrent`
succeeds and makes its context argument the current one. -/
def demoPlatform (visuals : List VisualConfig) (created : Nat) : Platform :=
  { XCreateWindow := 7
    desktopBitsPerPixel := 32
    defaultSettings := ⟨0, 0, 0⟩
    XGetWindowAttributes := fun _ => true
    XGetVisualInfo := fun _ => some visuals
    glXCreateContext := fun _ _ => created
    glXMakeCurrent := fun _ _ c => (true, c) }

/-- An object as the windowed constructor leaves it before `CreateContext`:
window 5, no context. -/
def freshWindowed : ContextGLX :=
  { myWindow := 5, myContext := 0, myOwnsWindow := false, mySettings := ⟨0, 0, 0⟩ }

/-- A platform on which `glXMakeCurrent` always fails and changes nothing. -/
def refusingPlatform : Platform :=
  { demoPlatform [] 0 with glXMakeCurrent := fun n _ _ => (false, n.current) }

/-! ## The pass over the visuals -/

section Pass

variable (evaluate : Evaluator) (bitsPerPixel : Nat) (mySettings : ContextSettings)

/-- The visual kept by a pass does not depend on the log of scored indices. -/
theorem forVisuals_scored_irrelevant (vs : List VisualConfig) (i : Nat) (b : Best)
    (sc : List Nat) :
    (forVisuals evaluate bitsPerPixel mySettings vs i { b with scored := sc }).bestVisual
        = (forVisuals evaluate bitsPerPixel mySettings vs i b).bestVisual ∧
    (forVisuals evaluate bitsPerPixel mySettings vs i { b with scored := sc }).bestScore
        = (forVisuals evaluate bitsPerPixel mySettings vs i b).bestScore := by
  induction vs generalizing i b sc with
  | nil => simp [forVisuals]
  | cons v vs ih =>
    simp only [forVisuals]
    split
    · exact ih (i + 1) b sc
    · split
      · exact ih (i + 1)
          { bestScore := scoreOf evaluate bitsPerPixel mySettings v, bestVisual := some i,
            scored := b.scored ++ [i] } (sc ++ [i])
      · exact ih (i + 1) { b with scored := b.scored ++ [i] } (sc ++ [i])

/-- A pass never raises `bestScore`, and leaves it at or below the score of
every visual that has both mandatory capabilities. -/
theorem forVisuals_bestScore_le (vs : List VisualConfig) (i : Nat) (b : Best) :
    (forVisuals evaluate bitsPerPixel mySettings vs i b).bestScore ≤ b.bestScore ∧
    ∀ (j : Nat) (v : VisualConfig), vs[j]? = some v → v.RGBA ≠ 0 → v.doubleBuffer ≠ 0 →
      (forVisuals evaluate bitsPerPixel mySettings vs i b).bestScore
        ≤ scoreOf evaluate bitsPerPixel mySettings v := by
  induction vs generalizing i b with
  | nil => simp [forVisuals]
  | cons v vs ih =>
    simp only [forVisuals]
    split
    · rename_i hm
      refine ⟨(ih (i + 1) b).1, ?_⟩
      intro j u hj h1 h2
      cases j with
      | zero =>
        simp at hj
        subst hj
        rcases hm with hm | hm
        · exact absurd hm h1
        · exact absurd hm h2
      | succ j =>
        simp at hj
        exact (ih (i + 1) b).2 j u hj h1 h2
    · split
      · rename_i hm hlt
        have h := ih (i + 1)
          { bestScore := scoreOf evaluate bitsPerPixel mySettings v, bestVisual := some i,
            scored := b.scored ++ [i] }
        refine ⟨le_trans h.1 (le_of_lt hlt), ?_⟩
        intro j u hj h1 h2
        cases j with
        | zero =>
          simp at hj
          subst hj
          exact h.1
        | succ j =>
          simp at hj
          exact h.2 j u hj h1 h2
      · rename_i hm hlt
        have h := ih (i + 1) { b with scored := b.scored ++ [i] }
        refine ⟨h.1, ?_⟩
        intro j u hj h1 h2
        cases j with
        | zero =>
          simp at hj
          subst hj
          exact le_trans h.1 (not_lt.mp hlt)
        | succ j =>
          simp at hj
          exact h.2 j u hj h1 h2

/-- A pass either keeps the `bestVisual` and `bestScore` it started with, or
ends on a visual of the list that has both mandatory capabilities, whose score
is the final `bestScore`, is below the initial `bestScore`, and is strictly
below the score of every capable visual enumerated before it. -/
theorem forVisuals_bestVisual (vs : List VisualConfig) (i : Nat) (b : Best) :
    ((forVisuals evaluate bitsPerPixel mySettings vs i b).bestVisual = b.bestVisual ∧
      (forVisuals evaluate bitsPerPixel mySettings vs i b).bestScore = b.bestScore) ∨
    ∃ (k : Nat) (v : VisualConfig), vs[k]? = some v ∧
      (forVisuals evaluate bitsPerPixel mySettings vs i b).bestVisual = some (i + k) ∧
      v.RGBA ≠ 0 ∧ v.doubleBuffer ≠ 0 ∧
      scoreOf evaluate bitsPerPixel mySettings v
        = (forVisuals evaluate bitsPerPixel mySettings vs i b).bestScore ∧
      (forVisuals evaluate bitsPerPixel mySettings vs i b).bestScore < b.bestScore ∧
      ∀ (j : Nat) (u : VisualConfig), j < k → vs[j]? = some u → u.RGBA ≠ 0 → u.doubleBuffer ≠ 0 →
        (forVisuals evaluate bitsPerPixel mySettings vs i b).bestScore
          < scoreOf evaluate bitsPerPixel mySettings u := by
  induction vs generalizing i b with
  | nil => simp [forVisuals]
  | cons v vs ih =>
    simp only [forVisuals]
    split
    · rename_i hm
      rcases ih (i + 1) b with h | ⟨k, w, hk, hbv, h1, h2, hs, hlt, hfirst⟩
      · exact Or.inl h
      · refine Or.inr ⟨k + 1, w, by simpa using hk, ?_, h1, h2, hs, hlt, ?_⟩
        · rw [hbv]; congr 1; omega
        · intro j u hj hu hu1 hu2
          cases j with
          | zero =>
            simp at hu
            subst hu
            rcases hm with hm | hm
            · exact absurd hm hu1
            · exact absurd hm hu2
          | succ j =>
            simp at hu
            exact hfirst j u (by omega) hu hu1 hu2
    · rename_i hm
      have hm1 : v.RGBA ≠ 0 := fun h => hm (Or.inl h)
      have hm2 : v.doubleBuffer ≠ 0 := fun h => hm (Or.inr h)
      split
      · rename_i hlt
        rcases ih (i + 1)
          { bestScore := scoreOf evaluate bitsPerPixel mySettings v, bestVisual := some i,
            scored := b.scored ++ [i] } with h | ⟨k, w, hk, hbv, h1, h2, hs, hlt2, hfirst⟩
        · refine Or.inr ⟨0, v, by simp, ?_, hm1, hm2, ?_, ?_, ?_⟩
          · simpa using h.1
          · exact h.2.symm
          · rw [h.2]; exact hlt
          · intro j u hj; omega
        · refine Or.inr ⟨k + 1, w, by simpa using hk, ?_, h1, h2, hs, lt_trans hlt2 hlt, ?_⟩
          · rw [hbv]; congr 1; omega
          · intro j u hj hu hu1 hu2
            cases j with
            | zero =>
              simp at hu
              subst hu
              exact hlt2
            | succ j =>
              simp at hu
              exact hfirst j u (by omega) hu hu1 hu2
      · rename_i hlt
        rcases ih (i + 1) { b with scored := b.scored ++ [i] } with
          h | ⟨k, w, hk, hbv, h1, h2, hs, hlt2, hfirst⟩
        · exact Or.inl h
        · refine Or.inr ⟨k + 1, w, by simpa using hk, ?_, h1, h2, hs, hlt2, ?_⟩
          · rw [hbv]; congr 1; omega
          · intro j u hj hu hu1 hu2
            cases j with
            | zero =>
              simp at hu
              subst hu
              exact lt_of_lt_of_le hlt2 (not_lt.mp hlt)
            | succ j =>
              simp at hu
              exact hfirst j u (by omega) hu hu1 hu2

/-- Every index a pass adds to the log of scored visuals is the index of a
visual that has both mandatory capabilities. -/
theorem forVisuals_scored (vs : List VisualConfig) (i : Nat) (b : Best) :
    ∀ x ∈ (forVisuals evaluate bitsPerPixel mySettings vs i b).scored,
      x ∈ b.scored ∨ ∃ (k : Nat) (v : VisualConfig), x = i + k ∧ vs[k]? = some v ∧ v.RGBA ≠ 0 ∧ v.doubleBuffer ≠ 0 := by
  induction vs generalizing i b with
  | nil => intro x hx; exact Or.inl (by simpa [forVisuals] using hx)
  | cons v vs ih =>
    intro x hx
    simp only [forVisuals] at hx
    have lift : (∃ (k : Nat) (w : VisualConfig), x = i + 1 + k ∧ vs[k]? = some w ∧ w.RGBA ≠ 0 ∧ w.doubleBuffer ≠ 0) →
        ∃ (k : Nat) (w : VisualConfig), x = i + k ∧ (v :: vs)[k]? = some w ∧ w.RGBA ≠ 0 ∧ w.doubleBuffer ≠ 0 := by
      rintro ⟨k, w, hx, hk, h1, h2⟩
      exact ⟨k + 1, w, by omega, by simpa using hk, h1, h2⟩
    split at hx
    · rcases ih (i + 1) b x hx with h | h
      · exact Or.inl h
      · exact Or.inr (lift h)
    · rename_i hm
      have hm1 : v.RGBA ≠ 0 := fun h => hm (Or.inl h)
      have hm2 : v.doubleBuffer ≠ 0 := fun h => hm (Or.inr h)
      have here : x ∈ b.scored ++ [i] →
          x ∈ b.scored ∨
            ∃ (k : Nat) (w : VisualConfig), x = i + k ∧ (v :: vs)[k]? = some w ∧ w.RGBA ≠ 0 ∧ w.doubleBuffer ≠ 0 := by
        intro h
        rcases List.mem_append.mp h with h | h
        · exact Or.inl h
        · exact Or.inr ⟨0, v, by simpa using h, by simp, hm1, hm2⟩
      split at hx
      · rcases ih (i + 1) _ x hx with h | h
        · exact here h
        · exact Or.inr (lift h)
      · rcases ih (i + 1) _ x hx with h | h
        · exact here h
        · exact Or.inr (lift h)

end Pass

/-! ## The selection loop -/

section Loop

variable (evaluate : Evaluator) (bitsPerPixel : Nat) (visuals : List VisualConfig)

/-- A pass that keeps no visual leaves `bestScore` as it was. -/
theorem forVisuals_none_bestScore (mySettings : ContextSettings) (bs : Int) (sc : List Nat)
    (h : (forVisuals evaluate bitsPerPixel mySettings visuals 0
      { bestScore := bs, bestVisual := none, scored := sc }).bestVisual = none) :
    (forVisuals evaluate bitsPerPixel mySettings visuals 0
      { bestScore := bs, bestVisual := none, scored := sc }).bestScore = bs := by
  rcases forVisuals_bestVisual evaluate bitsPerPixel mySettings visuals 0
    { bestScore := bs, bestVisual := none, scored := sc } with h1 | ⟨k, v, _, hbv, _⟩
  · exact h1.2
  · rw [h] at hbv; cases hbv

/-- The locals the loop ends with are those of a pass made with the final
`mySettings`, started from the initial `bestScore` and `bestVisual == NULL`;
the loop changes nothing of `mySettings` but the antialiasing level. -/
theorem whileNoVisual_last_pass (mySettings : ContextSettings) (bs : Int)
    (sc lv : List Nat) :
    (∃ sc1, (whileNoVisual evaluate bitsPerPixel visuals mySettings bs sc lv).best
      = forVisuals evaluate bitsPerPixel
          (whileNoVisual evaluate bitsPerPixel visuals mySettings bs sc lv).mySettings visuals 0
          { bestScore := bs, bestVisual := none, scored := sc1 }) ∧
    (whileNoVisual evaluate bitsPerPixel visuals mySettings bs sc lv).mySettings.DepthBits
      = mySettings.DepthBits ∧
    (whileNoVisual evaluate bitsPerPixel visuals mySettings bs sc lv).mySettings.StencilBits
      = mySettings.StencilBits := by
  induction mySettings, bs, sc, lv using whileNoVisual.induct evaluate bitsPerPixel visuals with
  | case1 s bs sc lv b lv1 hnone h2 ih =>
    rw [whileNoVisual]
    simp only [b] at hnone
    rw [if_pos hnone, if_pos h2]
    have hb := forVisuals_none_bestScore evaluate bitsPerPixel visuals s bs sc hnone
    simp only [b, lv1, hb] at ih
    rw [hb]
    exact ih
  | case2 s bs sc lv b lv1 hnone h2 h0 ih =>
    rw [whileNoVisual]
    simp only [b] at hnone
    rw [if_pos hnone, if_neg h2, if_pos h0]
    have hb := forVisuals_none_bestScore evaluate bitsPerPixel visuals s bs sc hnone
    simp only [b, lv1, hb] at ih
    rw [hb]
    exact ih
  | case3 s bs sc lv b hnone h2 h0 =>
    rw [whileNoVisual]
    simp only [b] at hnone
    rw [if_pos hnone, if_neg h2, if_neg h0]
    exact ⟨⟨sc, rfl⟩, rfl, rfl⟩
  | case4 s bs sc lv b hsome =>
    rw [whileNoVisual]
    simp only [b] at hsome
    rw [if_neg hsome]
    exact ⟨⟨sc, rfl⟩, rfl, rfl⟩

/-- Every index in the log of scored visuals the loop ends with was there at
the start or is the index of a visual that has both mandatory capabilities. -/
theorem whileNoVisual_scored (mySettings : ContextSettings) (bs : Int) (sc lv : List Nat) :
    ∀ x ∈ (whileNoVisual evaluate bitsPerPixel visuals mySettings bs sc lv).best.scored,
      x ∈ sc ∨ ∃ v : VisualConfig, visuals[x]? = some v ∧ v.RGBA ≠ 0 ∧ v.doubleBuffer ≠ 0 := by
  have pass : ∀ (s : ContextSettings) (bs : Int) (sc : List Nat),
      ∀ x ∈ (forVisuals evaluate bitsPerPixel s visuals 0
          { bestScore := bs, bestVisual := none, scored := sc }).scored,
        x ∈ sc ∨ ∃ v : VisualConfig, visuals[x]? = some v ∧ v.RGBA ≠ 0 ∧ v.doubleBuffer ≠ 0 := by
    intro s bs sc x hx
    rcases forVisuals_scored evaluate bitsPerPixel s visuals 0 _ x hx with h | ⟨k, v, hk, hv, h1, h2⟩
    · exact Or.inl h
    · refine Or.inr ⟨v, ?_, h1, h2⟩
      have : x = k := by omega
      rw [this]; exact hv
  induction mySettings, bs, sc, lv using whileNoVisual.induct evaluate bitsPerPixel visuals with
  | case1 s bs sc lv b lv1 hnone h2 ih =>
    rw [whileNoVisual]
    simp only [b] at hnone
    rw [if_pos hnone, if_pos h2]
    intro x hx
    rcases ih x hx with h | h
    · exact pass s bs sc x h
    · exact Or.inr h
  | case2 s bs sc lv b lv1 hnone h2 h0 ih =>
    rw [whileNoVisual]
    simp only [b] at hnone
    rw [if_pos hnone, if_neg h2, if_pos h0]
    intro x hx
    rcases ih x hx with h | h
    · exact pass s bs sc x h
    · exact Or.inr h
  | case3 s bs sc lv b hnone h2 h0 =>
    rw [whileNoVisual]
    simp only [b] at hnone
    rw [if_pos hnone, if_neg h2, if_neg h0]
    exact pass s bs sc
  | case4 s bs sc lv b hsome =>
    rw [whileNoVisual]
    simp only [b] at hsome
    rw [if_neg hsome]
    exact pass s bs sc

/-- The levels of the passes made by the loop: the levels recorded before it,
then an initial part of the ladder, ending on the final antialiasing level;
the whole ladder, down to level 0, when the loop ends without a visual. -/
theorem whileNoVisual_levels (mySettings : ContextSettings) (bs : Int) (sc lv : List Nat) :
    (∃ t, (whileNoVisual evaluate bitsPerPixel visuals mySettings bs sc lv).levels ++ t
        = lv ++ ladder mySettings.AntialiasingLevel) ∧
    (∃ t, (whileNoVisual evaluate bitsPerPixel visuals mySettings bs sc lv).levels
        = t ++ [(whileNoVisual evaluate bitsPerPixel visuals mySettings bs sc
            lv).mySettings.AntialiasingLevel]) ∧
    ((whileNoVisual evaluate bitsPerPixel visuals mySettings bs sc lv).best.bestVisual = none →
      (whileNoVisual evaluate bitsPerPixel visuals mySettings bs sc lv).levels
        = lv ++ ladder mySettings.AntialiasingLevel ∧
      (whileNoVisual evaluate bitsPerPixel visuals mySettings bs sc
        lv).mySettings.AntialiasingLevel = 0) := by
  induction mySettings, bs, sc, lv using whileNoVisual.induct evaluate bitsPerPixel visuals with
  | case1 s bs sc lv b lv1 hnone h2 ih =>
    rw [whileNoVisual]
    simp only [b] at hnone
    rw [if_pos hnone, if_pos h2]
    simp only [b, lv1] at ih
    have hl : lv ++ ladder s.AntialiasingLevel
        = (lv ++ [s.AntialiasingLevel]) ++ ladder 2 := by
      simp [ladder, h2]
    rw [hl]
    exact ih
  | case2 s bs sc lv b lv1 hnone h2 h0 ih =>
    rw [whileNoVisual]
    simp only [b] at hnone
    rw [if_pos hnone, if_neg h2, if_pos h0]
    simp only [b, lv1] at ih
    have hl : lv ++ ladder s.AntialiasingLevel
        = (lv ++ [s.AntialiasingLevel]) ++ ladder 0 := by
      simp [ladder, h2, h0]
    rw [hl]
    exact ih
  | case3 s bs sc lv b hnone h2 h0 =>
    rw [whileNoVisual]
    simp only [b] at hnone
    rw [if_pos hnone, if_neg h2, if_neg h0]
    have hz : s.AntialiasingLevel = 0 := by omega
    refine ⟨⟨[], ?_⟩, ⟨lv, rfl⟩, fun _ => ⟨?_, hz⟩⟩
    · simp [ladder, hz]
    · simp [ladder, hz]
  | case4 s bs sc lv b hsome =>
    rw [whileNoVisual]
    simp only [b] at hsome
    rw [if_neg hsome]
    refine ⟨⟨(ladder s.AntialiasingLevel).tail, ?_⟩, ⟨lv, rfl⟩, fun h => absurd h hsome⟩
    unfold ladder
    split
    · simp
    · split
      · simp
      · simp; omega

end Loop

/-! ## Claims on the selection loop -/

/-- C1: the selection loop makes at most three passes, at levels that form
an initial part of the ladder of the requested level; when it ends without a
visual the levels are exactly requested, 2, 0 (requested > 2), requested, 0
(0 < requested <= 2) or 0 alone (requested = 0), the level it gave up at is 0,
and the pass at level 0 keeps no visual. Termination is the totality of
`findBestVisual`. -/
theorem findBestVisual_ladder (evaluate : Evaluator) (bitsPerPixel : Nat)
    (settings : ContextSettings) (visuals : List VisualConfig) :
    (findBestVisual evaluate bitsPerPixel settings visuals).levels.length ≤ 3 ∧
    (∃ t, (findBestVisual evaluate bitsPerPixel settings visuals).levels ++ t
      = ladder settings.AntialiasingLevel) ∧
    ((findBestVisual evaluate bitsPerPixel settings visuals).best.bestVisual = none →
      (2 < settings.AntialiasingLevel →
        (findBestVisual evaluate bitsPerPixel settings visuals).levels
          = [settings.AntialiasingLevel, 2, 0]) ∧
      (0 < settings.AntialiasingLevel → settings.AntialiasingLevel ≤ 2 →
        (findBestVisual evaluate bitsPerPixel settings visuals).levels
          = [settings.AntialiasingLevel, 0]) ∧
      (settings.AntialiasingLevel = 0 →
        (findBestVisual evaluate bitsPerPixel settings visuals).levels = [0]) ∧
      (findBestVisual evaluate bitsPerPixel settings visuals).mySettings
        = { settings with AntialiasingLevel := 0 } ∧
      ∀ sc, (forVisuals evaluate bitsPerPixel { settings with AntialiasingLevel := 0 }
        visuals 0 { bestScore := 0xFFFF, bestVisual := none, scored := sc }).bestVisual
          = none) := by
  have hl := whileNoVisual_levels evaluate bitsPerPixel visuals settings 0xFFFF [] []
  have hp := whileNoVisual_last_pass evaluate bitsPerPixel visuals settings 0xFFFF [] []
  unfold findBestVisual
  simp only [List.nil_append] at hl
  obtain ⟨⟨t, ht⟩, _, hnone⟩ := hl
  refine ⟨?_, ⟨t, ht⟩, ?_⟩
  · have hlen := congrArg List.length ht
    have h3 : (ladder settings.AntialiasingLevel).length ≤ 3 := by
      unfold ladder; split
      · simp
      · split <;> simp
    rw [List.length_append] at hlen
    omega
  · intro h
    obtain ⟨hlev, haa⟩ := hnone h
    obtain ⟨⟨sc1, hb⟩, hd, hs⟩ := hp
    have hset : (whileNoVisual evaluate bitsPerPixel visuals settings 0xFFFF [] []).mySettings
        = { settings with AntialiasingLevel := 0 } := by
      cases hw : (whileNoVisual evaluate bitsPerPixel visuals settings 0xFFFF [] []).mySettings
      rw [hw] at hd hs haa
      simp only at hd hs haa
      subst hd hs haa
      rfl
    refine ⟨?_, ?_, ?_, hset, ?_⟩
    · intro h2; rw [hlev]; simp [ladder, h2]
    · intro h0 h2
      rw [hlev]
      have : ¬ settings.AntialiasingLevel > 2 := by omega
      simp [ladder, this, h0]
    · intro h0; rw [hlev]; simp [ladder, h0]
    · intro sc
      rw [hb, hset] at h
      exact ((forVisuals_scored_irrelevant evaluate bitsPerPixel
        { settings with AntialiasingLevel := 0 } visuals 0
        { bestScore := 0xFFFF, bestVisual := none, scored := sc1 } sc).1).trans h

/-- Witness of C1: with a single candidate that is not double-buffered and
level 4 requested, no pass keeps a visual and the levels tried are 4, 2, 0. -/
theorem findBestVisual_ladder_witness :
    (findBestVisual plainScore 32 ⟨24, 8, 4⟩ [singleBuffered]).best.bestVisual = none ∧
    (findBestVisual plainScore 32 ⟨24, 8, 4⟩ [singleBuffered]).levels = [4, 2, 0] :=
  have h : (findBestVisual plainScore 32 ⟨24, 8, 4⟩ [singleBuffered]).best.bestVisual = none := by
    simp [findBestVisual, whileNoVisual, forVisuals, singleBuffered]
  ⟨h, ((findBestVisual_ladder plainScore 32 ⟨24, 8, 4⟩ [singleBuffered]).2.2 h).1 (by decide)⟩

/-- C2: the visual the selection loop ends on is a candidate that has both
mandatory capabilities; its score against the settings of the pass that kept
it is the lowest among all candidates having both capabilities, and it is the
first candidate with that score; every index ever handed to `EvaluateFormat`
is that of a candidate having both capabilities. -/
theorem findBestVisual_first_lowest (evaluate : Evaluator) (bitsPerPixel : Nat)
    (settings : ContextSettings) (visuals : List VisualConfig) :
    (∀ x ∈ (findBestVisual evaluate bitsPerPixel settings visuals).best.scored,
      ∃ u : VisualConfig, visuals[x]? = some u ∧ u.RGBA ≠ 0 ∧ u.doubleBuffer ≠ 0) ∧
    ∀ i : Nat, (findBestVisual evaluate bitsPerPixel settings visuals).best.bestVisual = some i →
      ∃ v : VisualConfig, visuals[i]? = some v ∧ v.RGBA ≠ 0 ∧ v.doubleBuffer ≠ 0 ∧
        ∀ (j : Nat) (u : VisualConfig), visuals[j]? = some u → u.RGBA ≠ 0 → u.doubleBuffer ≠ 0 →
          scoreOf evaluate bitsPerPixel
              (findBestVisual evaluate bitsPerPixel settings visuals).mySettings v
            ≤ scoreOf evaluate bitsPerPixel
              (findBestVisual evaluate bitsPerPixel settings visuals).mySettings u ∧
          (scoreOf evaluate bitsPerPixel
              (findBestVisual evaluate bitsPerPixel settings visuals).mySettings u
            = scoreOf evaluate bitsPerPixel
              (findBestVisual evaluate bitsPerPixel settings visuals).mySettings v → i ≤ j) := by
  constructor
  · intro x hx
    rcases whileNoVisual_scored evaluate bitsPerPixel visuals settings 0xFFFF [] [] x hx with h | h
    · cases h
    · exact h
  · intro i hi
    obtain ⟨⟨sc1, hb⟩, _, _⟩ :=
      whileNoVisual_last_pass evaluate bitsPerPixel visuals settings 0xFFFF [] []
    unfold findBestVisual at hi ⊢
    generalize (whileNoVisual evaluate bitsPerPixel visuals settings 0xFFFF [] []).mySettings
      = s at hb ⊢
    rw [hb] at hi
    have hle := (forVisuals_bestScore_le evaluate bitsPerPixel s visuals 0
      { bestScore := 0xFFFF, bestVisual := none, scored := sc1 }).2
    rcases forVisuals_bestVisual evaluate bitsPerPixel s visuals 0
      { bestScore := 0xFFFF, bestVisual := none, scored := sc1 } with
      h | ⟨k, v, hk, hbv, h1, h2, hs, _, hfirst⟩
    · rw [h.1] at hi; cases hi
    · rw [hbv] at hi
      have hik : k = i := by simpa using hi
      subst hik
      refine ⟨v, hk, h1, h2, ?_⟩
      intro j u hj hu1 hu2
      refine ⟨?_, ?_⟩
      · rw [hs]; exact hle j u hj hu1 hu2
      · intro heq
        by_contra hlt
        have := hfirst j u (by omega) hj hu1 hu2
        rw [← hs, heq] at this
        exact lt_irrefl _ this

/-- Witness of C2: in Scenario A the loop ends on candidate 0, which is a
candidate with both capabilities. -/
theorem findBestVisual_first_lowest_witness :
    (findBestVisual plainScore 32 ⟨24, 8, 4⟩ scenarioA).best.bestVisual = some 0 ∧
    ∃ v : VisualConfig, scenarioA[0]? = some v ∧ v.RGBA ≠ 0 ∧ v.doubleBuffer ≠ 0 :=
  have h : (findBestVisual plainScore 32 ⟨24, 8, 4⟩ scenarioA).best.bestVisual = some 0 := by
    simp [findBestVisual, whileNoVisual, forVisuals, scoreOf, scenarioA, rgbaVisual,
      plainScore, EvaluateFormat]
  ⟨h, by
    obtain ⟨v, hv, h1, h2, _⟩ :=
      (findBestVisual_first_lowest plainScore 32 ⟨24, 8, 4⟩ scenarioA).2 0 h
    exact ⟨v, hv, h1, h2⟩⟩

/-! ## Claims on `CreateContext` -/

section Create

open ContextGLX

/-- In Scenario A, for every scoring function under which the first candidate
scores below `0xFFFF` and not above the second, the first pass keeps candidate
0 and the loop makes no other pass. -/
theorem scenarioA_first_pass (evaluate : Evaluator)
    (h1 : scoreOf evaluate 32 ⟨24, 8, 4⟩ (rgbaVisual 24 8 0 0) < 0xFFFF)
    (h2 : scoreOf evaluate 32 ⟨24, 8, 4⟩ (rgbaVisual 24 8 0 0)
      ≤ scoreOf evaluate 32 ⟨24, 8, 4⟩ (rgbaVisual 16 0 1 4)) :
    findBestVisual evaluate 32 ⟨24, 8, 4⟩ scenarioA
      = { mySettings := ⟨24, 8, 4⟩
          best := { bestScore := scoreOf evaluate 32 ⟨24, 8, 4⟩ (rgbaVisual 24 8 0 0)
                    bestVisual := some 0
                    scored := [0, 1] }
          levels := [4] } := by
  have h3 : ¬ scoreOf evaluate 32 ⟨24, 8, 4⟩ (rgbaVisual 16 0 1 4)
      < scoreOf evaluate 32 ⟨24, 8, 4⟩ (rgbaVisual 24 8 0 0) := not_lt.mpr h2
  have hr1 : (rgbaVisual 24 8 0 0).RGBA = 1 := rfl
  have hd1 : (rgbaVisual 24 8 0 0).doubleBuffer = 1 := rfl
  have hr2 : (rgbaVisual 16 0 1 4).RGBA = 1 := rfl
  have hd2 : (rgbaVisual 16 0 1 4).doubleBuffer = 1 := rfl
  have h1' : scoreOf evaluate 32 ⟨24, 8, 4⟩ (rgbaVisual 24 8 0 0) < 65535 := h1
  unfold findBestVisual
  rw [whileNoVisual]
  simp [scenarioA, forVisuals, hr1, hd1, hr2, hd2, h1', h3]

/-- Scenario A is not decided by `CreateContext` alone: under two weightings
that both put antialiasing first and colour last, the weights 1, 2, 2, 4 keep
the first candidate in the first pass (levels 4; settings 24/8/4), while the
weights 1, 4096, 4096, 32768 push every score of the passes at levels 4 and 2
to `0xFFFF` or above (levels 4, 2, 0; settings 24/8/0). -/
theorem scenarioA_depends_on_weights :
    ScoreWeights.ordered ⟨1, 2, 2, 4⟩ ∧ ScoreWeights.ordered ⟨1, 4096, 4096, 32768⟩ ∧
    (findBestVisual (EvaluateFormat ⟨1, 2, 2, 4⟩) 32 ⟨24, 8, 4⟩ scenarioA).levels = [4] ∧
    (CreateContext (demoPlatform scenarioA 1) (EvaluateFormat ⟨1, 2, 2, 4⟩) freshWindowed none 32
      ⟨24, 8, 4⟩).mySettings = ⟨24, 8, 4⟩ ∧
    (findBestVisual (EvaluateFormat ⟨1, 4096, 4096, 32768⟩) 32 ⟨24, 8, 4⟩ scenarioA).levels
      = [4, 2, 0] ∧
    (CreateContext (demoPlatform scenarioA 1) (EvaluateFormat ⟨1, 4096, 4096, 32768⟩)
      freshWindowed none 32 ⟨24, 8, 4⟩).mySettings = ⟨24, 8, 0⟩ := by
  refine ⟨by decide, by decide, ?_, ?_, ?_, ?_⟩ <;>
    simp [CreateContext, demoPlatform, freshWindowed, findBestVisual, whileNoVisual,
      forVisuals, scoreOf, scenarioA, rgbaVisual, EvaluateFormat, toShare, toUnsigned]

/-- The index the selection loop ends on is an index of the list. -/
theorem findBestVisual_index (evaluate : Evaluator) (bitsPerPixel : Nat)
    (settings : ContextSettings) (visuals : List VisualConfig) (i : Nat)
    (h : (findBestVisual evaluate bitsPerPixel settings visuals).best.bestVisual = some i) :
    ∃ v : VisualConfig, visuals[i]? = some v := by
  obtain ⟨⟨sc1, hb⟩, _, _⟩ :=
    whileNoVisual_last_pass evaluate bitsPerPixel visuals settings 0xFFFF [] []
  unfold findBestVisual at h
  rw [hb] at h
  rcases forVisuals_bestVisual evaluate bitsPerPixel
    (whileNoVisual evaluate bitsPerPixel visuals settings 0xFFFF [] []).mySettings visuals 0
    { bestScore := 0xFFFF, bestVisual := none, scored := sc1 } with h0 | ⟨k, v, hk, hbv, _⟩
  · rw [h0.1] at h; cases h
  · rw [hbv] at h
    have hik : k = i := by simpa using h
    subst hik
    exact ⟨v, hk⟩

/-- The method `CreateContext` writes neither `myWindow` nor `myOwnsWindow`. -/
theorem CreateContext_frame (p : Platform) (evaluate : Evaluator) (self : ContextGLX)
    (shared : Option ContextGLX) (bitsPerPixel : Nat) (settings : ContextSettings) :
    (CreateContext p evaluate self shared bitsPerPixel settings).myWindow = self.myWindow ∧
    (CreateContext p evaluate self shared bitsPerPixel settings).myOwnsWindow
      = self.myOwnsWindow := by
  unfold CreateContext
  simp only
  split
  · exact ⟨rfl, rfl⟩
  · split
    · exact ⟨rfl, rfl⟩
    · split
      · exact ⟨rfl, rfl⟩
      · split
        · exact ⟨rfl, rfl⟩
        · split <;> exact ⟨rfl, rfl⟩

/-- C4 (as amended): when the selection loop ends on candidate `i` and
`glXCreateContext` returns a non-null context, `mySettings` ends with
DepthBits and StencilBits converted from the depth and stencil sizes of
candidate `i` (equal to them whenever these are non-negative), whatever was
requested. -/
theorem CreateContext_settings_from_visual (p : Platform) (evaluate : Evaluator)
    (self : ContextGLX) (shared : Option ContextGLX) (bitsPerPixel : Nat)
    (settings : ContextSettings) (visuals : List VisualConfig) (i : Nat)
    (hattr : p.XGetWindowAttributes self.myWindow = true)
    (hvis : p.XGetVisualInfo self.myWindow = some visuals)
    (hsel : (findBestVisual evaluate bitsPerPixel settings visuals).best.bestVisual = some i)
    (hctx : p.glXCreateContext i (toShare shared) ≠ 0) :
    ∃ v : VisualConfig, visuals[i]? = some v ∧
      (CreateContext p evaluate self shared bitsPerPixel settings).mySettings.DepthBits
        = toUnsigned v.depth ∧
      (CreateContext p evaluate self shared bitsPerPixel settings).mySettings.StencilBits
        = toUnsigned v.stencil ∧
      (0 ≤ v.depth → v.depth < 2 ^ 32 →
        ((CreateContext p evaluate self shared bitsPerPixel settings).mySettings.DepthBits : Int)
          = v.depth) ∧
      (0 ≤ v.stencil → v.stencil < 2 ^ 32 →
        ((CreateContext p evaluate self shared bitsPerPixel settings).mySettings.StencilBits : Int)
          = v.stencil) := by
  obtain ⟨v, hv⟩ := findBestVisual_index evaluate bitsPerPixel settings visuals i hsel
  have hlen : visuals.length ≠ 0 := by
    intro h0
    have : visuals = [] := List.length_eq_zero.mp h0
    subst this
    simp at hv
  have hcast : ∀ x : Int, 0 ≤ x → x < 2 ^ 32 → ((toUnsigned x : Nat) : Int) = x := by
    intro x h0 h1
    unfold toUnsigned
    rw [Int.emod_eq_of_lt h0 h1]
    exact Int.toNat_of_nonneg h0
  have hD : (CreateContext p evaluate self shared bitsPerPixel settings).mySettings.DepthBits
      = toUnsigned v.depth := by
    unfold CreateContext
    simp [hattr, hvis, hlen, hsel, hctx, hv]
  have hS : (CreateContext p evaluate self shared bitsPerPixel settings).mySettings.StencilBits
      = toUnsigned v.stencil := by
    unfold CreateContext
    simp [hattr, hvis, hlen, hsel, hctx, hv]
  refine ⟨v, hv, hD, hS, ?_, ?_⟩
  · intro h0 h1; rw [hD]; exact hcast _ h0 h1
  · intro h0 h1; rw [hS]; exact hcast _ h0 h1

/-- Witness of C4 (as amended): 24/8 requested, the only candidate has 16/0,
the native context is created; `mySettings` ends with DepthBits 16. -/
theorem CreateContext_settings_from_visual_witness :
    ∃ v : VisualConfig, [rgbaVisual 16 0 0 0][0]? = some v ∧
      (CreateContext (demoPlatform [rgbaVisual 16 0 0 0] 1) plainScore freshWindowed none 32
        ⟨24, 8, 0⟩).mySettings.DepthBits = toUnsigned v.depth := by
  obtain ⟨v, hv, hD, _⟩ :=
    CreateContext_settings_from_visual (demoPlatform [rgbaVisual 16 0 0 0] 1) plainScore
      freshWindowed none 32 ⟨24, 8, 0⟩ [rgbaVisual 16 0 0 0] 0 rfl rfl
      (by simp [findBestVisual, whileNoVisual, forVisuals, scoreOf, rgbaVisual, plainScore,
        EvaluateFormat])
      (by simp [demoPlatform])
  exact ⟨v, hv, hD⟩

/-- C4 (counterexample): 24/8 requested, the selection loop ends on the only
candidate, which has depth 16 and stencil 0, `glXCreateContext` returns
`NULL`: `mySettings` keeps the requested DepthBits=24 and StencilBits=8. -/
theorem CreateContext_settings_kept_on_native_failure :
    (findBestVisual plainScore 32 ⟨24, 8, 0⟩ [rgbaVisual 16 0 0 0]).best.bestVisual = some 0 ∧
    (rgbaVisual 16 0 0 0).depth = 16 ∧ (rgbaVisual 16 0 0 0).stencil = 0 ∧
    (CreateContext (demoPlatform [rgbaVisual 16 0 0 0] 0) plainScore freshWindowed none 32
      ⟨24, 8, 0⟩).mySettings = ⟨24, 8, 0⟩ := by
  simp [CreateContext, demoPlatform, freshWindowed, findBestVisual, whileNoVisual, forVisuals,
    scoreOf, rgbaVisual, plainScore, EvaluateFormat, toShare]

end Create

/-! ## Claims on construction, activation, display and destruction -/

section Lifecycle

open ContextGLX

/-- On each early return `CreateContext` leaves `myContext` as it found it. -/
theorem CreateContext_myContext_of_fails (p : Platform) (evaluate : Evaluator)
    (self : ContextGLX) (shared : Option ContextGLX) (bitsPerPixel : Nat)
    (settings : ContextSettings) (h0 : self.myContext = 0)
    (h : creationFails p evaluate shared self.myWindow bitsPerPixel settings) :
    (CreateContext p evaluate self shared bitsPerPixel settings).myContext = 0 := by
  unfold CreateContext
  rcases h with h | h | h | ⟨visuals, hv, h | ⟨i, hi, hc⟩⟩
  · simp [h, h0]
  · simp only [h]
    split <;> exact h0
  · simp only [h]
    split
    · exact h0
    · simp [h0]
  · simp only [hv, h]
    split
    · exact h0
    · split <;> exact h0
  · simp only [hv, hi, hc]
    split
    · exact h0
    · split
      · exact h0
      · simp

/-- Calling `MakeCurrent(true)` on an object without native context returns false and
issues nothing. -/
theorem MakeCurrent_true_disabled (p : Platform) (self : ContextGLX) (n : Native)
    (h : self.myContext = 0) : MakeCurrent p self true n = (false, n) := by
  simp [MakeCurrent, h]

/-- C5: a construction that fails leaves the context disabled. For the
windowed constructor given a null window handle or hitting any early return of
`CreateContext`, and for the offscreen constructor hitting any early return of
`CreateContext`, `myContext` is `NULL` after construction and
`MakeCurrent(true)` on the constructed object returns false (issuing no native
call), on every thread state. -/
theorem failed_construction_disabled (p : Platform) (evaluate : Evaluator)
    (setActive : Activator) (shared : Option ContextGLX) (handle bitsPerPixel : Nat)
    (settings : ContextSettings) (n m : Native) :
    ((handle = 0 ∨ creationFails p evaluate shared handle bitsPerPixel settings) →
      (ContextGLX_owner p evaluate setActive shared handle bitsPerPixel settings n).1.myContext
        = 0 ∧
      MakeCurrent p
        (ContextGLX_owner p evaluate setActive shared handle bitsPerPixel settings n).1 true m
        = (false, m)) ∧
    (creationFails p evaluate shared p.XCreateWindow p.desktopBitsPerPixel ⟨0, 0, 0⟩ →
      (ContextGLX_shared p evaluate setActive shared n).1.myContext = 0 ∧
      MakeCurrent p (ContextGLX_shared p evaluate setActive shared n).1 true m = (false, m)) := by
  constructor
  · intro h
    have hctx : (ContextGLX_owner p evaluate setActive shared handle bitsPerPixel
        settings n).1.myContext = 0 := by
      unfold ContextGLX_owner
      rcases h with h | h
      · subst h
        simp only [ne_eq, not_true_eq_false, if_false]
        split <;> rfl
      · have hc := CreateContext_myContext_of_fails p evaluate
          { myWindow := handle, myContext := 0, myOwnsWindow := false,
            mySettings := p.defaultSettings } shared bitsPerPixel settings rfl h
        simp only
        split
        · split
          · exact hc
          · rfl
        · split
          · exact hc
          · rfl
    exact ⟨hctx, MakeCurrent_true_disabled p _ m hctx⟩
  · intro h
    have hctx : (ContextGLX_shared p evaluate setActive shared n).1.myContext = 0 := by
      unfold ContextGLX_shared
      have hc := CreateContext_myContext_of_fails p evaluate
        { myWindow := p.XCreateWindow, myContext := 0, myOwnsWindow := true,
          mySettings := p.defaultSettings } shared p.desktopBitsPerPixel ⟨0, 0, 0⟩ rfl h
      simp only
      split <;> exact hc
    exact ⟨hctx, MakeCurrent_true_disabled p _ m hctx⟩

/-- Witness of C5: the windowed constructor given a null window handle, and
the offscreen constructor when the enumeration returns no visual (Scenario B). -/
theorem failed_construction_disabled_witness :
    (ContextGLX_owner (demoPlatform scenarioA 1) plainScore
      (SetActive (demoPlatform scenarioA 1)) none 0 32 ⟨24, 8, 4⟩ ⟨0, []⟩).1.myContext = 0 ∧
    (ContextGLX_shared (demoPlatform [] 1) plainScore (SetActive (demoPlatform [] 1)) none
      ⟨0, []⟩).1.myContext = 0 :=
  ⟨((failed_construction_disabled (demoPlatform scenarioA 1) plainScore
      (SetActive (demoPlatform scenarioA 1)) none 0 32 ⟨24, 8, 4⟩ ⟨0, []⟩ ⟨0, []⟩).1
      (Or.inl rfl)).1,
   ((failed_construction_disabled (demoPlatform [] 1) plainScore
      (SetActive (demoPlatform [] 1)) none 0 32 ⟨24, 8, 4⟩ ⟨0, []⟩ ⟨0, []⟩).2
      (Or.inr (Or.inr (Or.inl rfl)))).1⟩

/-- C6 (as amended): on a disabled context, on every thread state,
`MakeCurrent(true)` returns false and issues nothing; `MakeCurrent(false)`
returns true and issues nothing when some context is current on the thread,
and issues the native unbind and returns its result when none is;
`Display()` issues nothing when `myWindow` is null too, and the native swap on
`myWindow` otherwise. -/
theorem disabled_context_operations (p : Platform) (self : ContextGLX) (n : Native)
    (h : self.myContext = 0) :
    MakeCurrent p self true n = (false, n) ∧
    (n.current ≠ 0 → MakeCurrent p self false n = (true, n)) ∧
    (n.current = 0 →
      (MakeCurrent p self false n).1 = (p.glXMakeCurrent n 0 0).1 ∧
      (MakeCurrent p self false n).2.calls = n.calls ++ [NativeCall.glXMakeCurrent 0 0]) ∧
    (self.myWindow = 0 → Display self n = n) ∧
    (self.myWindow ≠ 0 →
      (Display self n).calls = n.calls ++ [NativeCall.glXSwapBuffers self.myWindow] ∧
      (Display self n).current = n.current) := by
  refine ⟨MakeCurrent_true_disabled p self n h, ?_, ?_, ?_, ?_⟩
  · intro hc; simp [MakeCurrent, h, hc]
  · intro hc; simp [MakeCurrent, h, hc, glXMakeCurrent]
  · intro hw; simp [Display, hw]
  · intro hw; simp [Display, hw, Native.issue]

/-- Witness of C6 (as amended): the object left by the windowed constructor
when the enumeration returns no visual. -/
theorem disabled_context_operations_witness :
    MakeCurrent (demoPlatform [] 1) ⟨5, 0, false, ⟨24, 8, 0⟩⟩ true ⟨9, []⟩ = (false, ⟨9, []⟩) :=
  (disabled_context_operations (demoPlatform [] 1) ⟨5, 0, false, ⟨24, 8, 0⟩⟩ ⟨9, []⟩ rfl).1

/-- C6 (counterexample): the windowed constructor on window 5, the
enumeration returning no visual, leaves a disabled context; on a thread where
context 9 is current, `MakeCurrent(false)` on it returns true, and `Display()`
issues `glXSwapBuffers` on window 5. -/
theorem disabled_context_not_inert :
    (ContextGLX_owner (demoPlatform [] 1) plainScore (SetActive (demoPlatform [] 1)) none 5 32
      ⟨24, 8, 0⟩ ⟨9, []⟩).1 = ⟨5, 0, false, ⟨24, 8, 0⟩⟩ ∧
    (MakeCurrent (demoPlatform [] 1) ⟨5, 0, false, ⟨24, 8, 0⟩⟩ false ⟨9, []⟩).1 = true ∧
    (Display ⟨5, 0, false, ⟨24, 8, 0⟩⟩ ⟨9, []⟩).calls = [NativeCall.glXSwapBuffers 5] := by
  simp [ContextGLX_owner, CreateContext, demoPlatform, MakeCurrent, Display, Native.issue]

/-- C7: on a context with a native handle, where the native bind of the
context succeeds and makes it the thread's current one, two calls of
`MakeCurrent(true)` in a row both return true; the first issues the native bind
once if the context was not already current and nothing if it was, the second
issues nothing. -/
theorem MakeCurrent_true_twice (p : Platform) (self : ContextGLX) (n : Native)
    (hctx : self.myContext ≠ 0)
    (hbind : p.glXMakeCurrent n self.myWindow self.myContext = (true, self.myContext)) :
    (MakeCurrent p self true n).1 = true ∧
    (MakeCurrent p self true (MakeCurrent p self true n).2).1 = true ∧
    (MakeCurrent p self true n).2.calls
      = n.calls ++ (if n.current = self.myContext then []
          else [NativeCall.glXMakeCurrent self.myWindow self.myContext]) ∧
    (MakeCurrent p self true (MakeCurrent p self true n).2).2 = (MakeCurrent p self true n).2 ∧
    (MakeCurrent p self true n).2.current = self.myContext := by
  by_cases hc : n.current = self.myContext
  · simp [MakeCurrent, hctx, hc]
  · simp [MakeCurrent, hctx, hc, glXMakeCurrent, hbind]

/-- Witness of C7: context 3 on window 5, no context current before. -/
theorem MakeCurrent_true_twice_witness :
    (MakeCurrent (demoPlatform [] 3) ⟨5, 3, false, ⟨24, 8, 0⟩⟩ true ⟨0, []⟩).2.calls
      = [] ++ (if (0 : Nat) = 3 then [] else [NativeCall.glXMakeCurrent 5 3]) :=
  (MakeCurrent_true_twice (demoPlatform [] 3) ⟨5, 3, false, ⟨24, 8, 0⟩⟩ ⟨0, []⟩
    (by decide) rfl).2.2.1

/-- C8 (as amended): when the thread's current context handle differs from
`myContext`, `MakeCurrent(false)` returns true, issues no native call and
leaves the thread's current context unchanged. -/
theorem MakeCurrent_false_not_current (p : Platform) (self : ContextGLX) (n : Native)
    (h : n.current ≠ self.myContext) : MakeCurrent p self false n = (true, n) := by
  simp [MakeCurrent, h]

/-- Witness of C8 (as amended): context 3, context 9 current on the thread. -/
theorem MakeCurrent_false_not_current_witness :
    MakeCurrent (demoPlatform [] 3) ⟨5, 3, false, ⟨24, 8, 0⟩⟩ false ⟨9, []⟩ = (true, ⟨9, []⟩) :=
  MakeCurrent_false_not_current (demoPlatform [] 3) ⟨5, 3, false, ⟨24, 8, 0⟩⟩ ⟨9, []⟩
    (by decide)

/-- C8 (counterexample): a context with no native handle, on a thread where no
context is current: `MakeCurrent(false)` issues `glXMakeCurrent(None, NULL)`,
and returns false when that call fails. -/
theorem MakeCurrent_false_null_unbinds :
    (MakeCurrent (demoPlatform [] 1) ⟨5, 0, false, ⟨24, 8, 0⟩⟩ false ⟨0, []⟩).2.calls
      = [NativeCall.glXMakeCurrent 0 0] ∧
    (MakeCurrent refusingPlatform ⟨5, 0, false, ⟨24, 8, 0⟩⟩ false ⟨0, []⟩).1 = false := by
  simp [MakeCurrent, glXMakeCurrent, demoPlatform, refusingPlatform]

/-- C9: destroying a context that has a native handle and is current on the
calling thread issues, in this order, the native unbind, the native destroy
and, when the object owns its window, the destruction of that window and a
flush; when the unbind succeeds no context is active on the thread afterwards. -/
theorem destructor_of_current (p : Platform) (self : ContextGLX) (n : Native)
    (hctx : self.myContext ≠ 0) (hcur : n.current = self.myContext) :
    (destructor p self n).calls
      = n.calls ++ [NativeCall.glXMakeCurrent 0 0, NativeCall.glXDestroyContext self.myContext]
          ++ (if self.myWindow ≠ 0 ∧ self.myOwnsWindow = true then
                [NativeCall.XDestroyWindow self.myWindow, NativeCall.XFlush]
              else []) ∧
    (p.glXMakeCurrent n 0 0 = (true, 0) → IsContextActive (destructor p self n) = false) := by
  by_cases hw : self.myWindow ≠ 0 ∧ self.myOwnsWindow = true
  · constructor
    · simp [destructor, hctx, hcur, hw, glXMakeCurrent, Native.issue]
    · intro hu
      simp [destructor, hctx, hcur, hw, glXMakeCurrent, Native.issue, IsContextActive, hu]
  · constructor
    · simp [destructor, hctx, hcur, hw, glXMakeCurrent, Native.issue]
    · intro hu
      simp [destructor, hctx, hcur, hw, glXMakeCurrent, Native.issue, IsContextActive, hu]

/-- Witness of C9: context 3 on its own window 7, current on the thread. -/
theorem destructor_of_current_witness :
    (destructor (demoPlatform [] 3) ⟨7, 3, true, ⟨0, 0, 0⟩⟩ ⟨3, []⟩).calls
      = [] ++ [NativeCall.glXMakeCurrent 0 0, NativeCall.glXDestroyContext 3]
          ++ (if (7 : Nat) ≠ 0 ∧ true = true then
                [NativeCall.XDestroyWindow 7, NativeCall.XFlush]
              else []) ∧
    IsContextActive (destructor (demoPlatform [] 3) ⟨7, 3, true, ⟨0, 0, 0⟩⟩ ⟨3, []⟩) = false :=
  ⟨(destructor_of_current (demoPlatform [] 3) ⟨7, 3, true, ⟨0, 0, 0⟩⟩ ⟨3, []⟩
      (by decide) rfl).1,
   (destructor_of_current (demoPlatform [] 3) ⟨7, 3, true, ⟨0, 0, 0⟩⟩ ⟨3, []⟩
      (by decide) rfl).2 rfl⟩

/-- C10 (as amended): `Display()` issues the native buffer swap if and only
if `myWindow` is non-null, whoever owns the window; a context built by the
offscreen constructor owns the window `XCreateWindow` returned, and
`Display()` on it issues the swap on that window whenever its handle is
non-null. -/
theorem Display_swaps_iff_window (p : Platform) (evaluate : Evaluator) (setActive : Activator)
    (shared : Option ContextGLX) (self : ContextGLX) (n m : Native) :
    ((Display self m).calls = m.calls ++ [NativeCall.glXSwapBuffers self.myWindow]
      ↔ self.myWindow ≠ 0) ∧
    (self.myWindow = 0 → Display self m = m) ∧
    (ContextGLX_shared p evaluate setActive shared n).1.myOwnsWindow = true ∧
    (ContextGLX_shared p evaluate setActive shared n).1.myWindow = p.XCreateWindow ∧
    (p.XCreateWindow ≠ 0 →
      (Display (ContextGLX_shared p evaluate setActive shared n).1 m).calls
        = m.calls ++ [NativeCall.glXSwapBuffers p.XCreateWindow]) := by
  have hframe := CreateContext_frame p evaluate
    { myWindow := p.XCreateWindow, myContext := 0, myOwnsWindow := true,
      mySettings := p.defaultSettings } shared p.desktopBitsPerPixel ⟨0, 0, 0⟩
  have hown : (ContextGLX_shared p evaluate setActive shared n).1.myOwnsWindow = true := by
    unfold ContextGLX_shared
    simp only
    split <;> exact hframe.2
  have hwin : (ContextGLX_shared p evaluate setActive shared n).1.myWindow
      = p.XCreateWindow := by
    unfold ContextGLX_shared
    simp only
    split <;> exact hframe.1
  refine ⟨?_, ?_, hown, hwin, ?_⟩
  · by_cases hw : self.myWindow = 0
    · simp [Display, hw]
    · simp [Display, hw, Native.issue]
  · intro hw; simp [Display, hw]
  · intro hw
    simp [Display, hwin, hw, Native.issue]

/-- Witness of C10 (as amended): the offscreen constructor on a platform whose
`XCreateWindow` returns window 7. -/
theorem Display_swaps_iff_window_witness :
    (Display (ContextGLX_shared (demoPlatform scenarioA 1) plainScore
      (SetActive (demoPlatform scenarioA 1)) none ⟨0, []⟩).1 ⟨0, []⟩).calls
      = [] ++ [NativeCall.glXSwapBuffers 7] :=
  (Display_swaps_iff_window (demoPlatform scenarioA 1) plainScore
    (SetActive (demoPlatform scenarioA 1)) none freshWindowed ⟨0, []⟩ ⟨0, []⟩).2.2.2.2
    (by decide)

/-- C10 (counterexample): a context built by the offscreen constructor owns
its private window 7, and `Display()` on it issues `glXSwapBuffers` on that
window. -/
theorem Display_swaps_private_window :
    (ContextGLX_shared (demoPlatform scenarioA 1) plainScore
      (SetActive (demoPlatform scenarioA 1)) none ⟨0, []⟩).1.myOwnsWindow = true ∧
    (Display (ContextGLX_shared (demoPlatform scenarioA 1) plainScore
      (SetActive (demoPlatform scenarioA 1)) none ⟨0, []⟩).1 ⟨0, []⟩).calls
      = [NativeCall.glXSwapBuffers 7] := by
  simp [ContextGLX_shared, CreateContext, demoPlatform, Display, Native.issue,
    findBestVisual, whileNoVisual, forVisuals, scoreOf, scenarioA, rgbaVisual, plainScore,
    EvaluateFormat, toShare, toUnsigned]

end Lifecycle
